import Mathlib

set_option maxRecDepth 100000

/-!
Shallow embedding of `src/slack2discord.py` (Slack message history importer
for Discord) for checking the natural-language specification against the code.

Modelling conventions:
* Python strings are Lean `String` (a wrapped `List Char`); `str.replace`,
  slicing `s[:limit]` and `str.strip('\n')` are embedded as executable
  functions on the character list with Python's semantics (in particular,
  a negative slice bound counts from the end of the string).
* A Python `dict` built by successive `d[k] = v` assignments is embedded as
  an association list in first-insertion order with last-write-wins updates
  (`dictInsert` / `dictGet`), exactly the observable behavior of a
  Python 3.7+ `dict` for string keys.
* Exceptions (`AttributeError` from `None.items()`, `TypeError` from
  `None[...]` subscription or `str.join` over a `None` element, `KeyError`
  from a missing dict key) are embedded as `Except PyErr`.
* `json.load` results are embedded as already-parsed records with `Option`
  fields for possibly-missing keys; `users`/`channels` being `None`
  (lookup file absent or unparseable) is `Option.none` at the call sites,
  matching `get_display_names` / `get_channel_names` returning `None`.
* The composite `datetime.fromtimestamp(float(ts)).strftime('%m/%d/%Y at %H:%M:%S')`
  is display formatting of a numeric timestamp (the data model requires
  `ts` to be numeric); it is passed in as an arbitrary total function
  `fmt : String → String`, and every theorem quantifies over it.
* Network sends (`ctx.send`) are observed as the list of composed message
  strings, in emission order; `uploadd_file` and the throttle sleep do not
  produce text sends and are not part of that trace.
-/

namespace Slack2Discord

/-- Embedded Python exception kinds raised by the code paths modelled here. -/
inductive PyErr where
  | attributeError
  | typeError
  | keyError (key : String)
deriving DecidableEq

/-- Slack `user_profile` / `users.json` profile object fields used by the code. -/
structure Profile where
  display_name : String
  real_name : String
deriving DecidableEq

/-- One entry of `users.json`: `{id, profile: {display_name, real_name}}`. -/
structure UserEntry where
  id : String
  profile : Profile
deriving DecidableEq

/-- One attachment descriptor from a message's `files` list.  `url_private`
is read with `.get`, hence `Option`. -/
structure FileInfo where
  url_private : Option String
  mimetype : String
  name : String
deriving DecidableEq

/-- One raw Slack message record; `Option` marks keys that may be absent.
`files` is read with `.get('files', [])`, so an absent key is `[]`. -/
structure MessageRecord where
  ts : Option String
  text : Option String
  user_profile : Option Profile
  user : Option String
  files : List FileInfo
deriving DecidableEq

/-- Association-list embedding of a Python `dict` with `String` keys/values. -/
abbrev Dict := List (String × String)

/-- Python `d[k]` read (as an `Option`): first entry with the key. -/
def dictGet (d : Dict) (k : String) : Option String :=
  (d.find? (fun p => p.1 == k)).map (fun p => p.2)

/-- Python `d[k] = v`: overwrite in place if the key exists, else append. -/
def dictInsert (d : Dict) (k v : String) : Dict :=
  if d.any (fun p => p.1 == k) then
    d.map (fun p => if p.1 == k then (k, v) else p)
  else
    d ++ [(k, v)]

/-- Python `s.replace(pat, rep)` on character lists: scan left to right,
replace each non-overlapping occurrence.  (The code's patterns
`<@uid>` / `<#cid>` are never empty, so the empty-pattern corner of
`str.replace` is irrelevant and the function leaves `s` unchanged there.) -/
def pyReplaceL (s pat rep : List Char) : List Char :=
  match s with
  | [] => []
  | c :: cs =>
    if h : pat ≠ [] ∧ pat.isPrefixOf (c :: cs) = true then
      rep ++ pyReplaceL ((c :: cs).drop pat.length) pat rep
    else
      c :: pyReplaceL cs pat rep
termination_by s.length
decreasing_by
  · have hp : 0 < pat.length := by
      cases pat with
      | nil => exact absurd rfl h.1
      | cons a l => simp
    simp [List.length_drop]
    omega
  · simp

/-- Python `s.replace(pat, rep)` on `String`. -/
def pyReplace (s pat rep : String) : String :=
  ⟨pyReplaceL s.data pat.data rep.data⟩

/-- Occurrence test: does `pat` occur as a contiguous substring of `s`? -/
def hasSub (s pat : List Char) : Bool :=
  match s with
  | [] => pat.isEmpty
  | _ :: cs => pat.isPrefixOf s || hasSub cs pat

/-- Python slice `s[:lim]` with a possibly negative bound: a negative bound
counts from the end (`s[:-k]` drops the last `k` characters, empty if
`k ≥ len(s)`). -/
def pySlice : String → Int → String
  | ⟨l⟩, lim =>
    if 0 ≤ lim then ⟨l.take lim.toNat⟩
    else ⟨l.take (l.length - (-lim).toNat)⟩

/-- Python `s.strip('\n')`: drop newline characters from both ends. -/
def pyStripNl : String → String
  | ⟨l⟩ =>
    ⟨((l.dropWhile (fun c => c == '\n')).reverse.dropWhile
        (fun c => c == '\n')).reverse⟩

/-- The raw Slack user-mention token `<@uid>` (source line 123). -/
def userToken (uid : String) : String := "<@" ++ uid ++ ">"

/-- The raw Slack channel-reference token `<#cid>` (source line 125). -/
def channelToken (cid : String) : String := "<#" ++ cid ++ ">"

/-- The user-mention substitution loop of `fill_references`
(source lines 122-123). -/
def substUsers (us : Dict) (m : String) : String :=
  us.foldl (fun acc p => pyReplace acc (userToken p.1) ("@" ++ p.2)) m

/-- The channel-reference substitution loop of `fill_references`
(source lines 124-125). -/
def substChannels (cs : Dict) (m : String) : String :=
  cs.foldl (fun acc p => pyReplace acc (channelToken p.1) ("#" ++ p.2)) m

/-- The attachment-block loop of `fill_references` (source lines 127-129):
`files_msg = '\n'.join([files_msg, file_url])` per URL; joining over a
`None` element raises `TypeError`. -/
def buildFilesMsgAux (acc : String) : List (Option String) → Except PyErr String
  | [] => .ok acc
  | none :: _ => .error .typeError
  | some u :: rest => buildFilesMsgAux (acc ++ "\n" ++ u) rest

/-- Attachment block starting from the empty string (source line 127). -/
def buildFilesMsg (files : List (Option String)) : Except PyErr String :=
  buildFilesMsgAux "" files

/-- `MAX_MESSAGE_SIZE = 2000 - 60` (source line 121). -/
def MAX_MESSAGE_SIZE : Nat := 2000 - 60

/-- `fill_references(message, users, channels, files)` (source lines 113-134).
`users` / `channels` are `none` when the lookup file was missing or
malformed; iterating `None.items()` raises `AttributeError`. -/
def fill_references (users channels : Option Dict) (files : List (Option String))
    (message : String) : Except PyErr String :=
  match users with
  | none => .error .attributeError
  | some us =>
    let m1 := substUsers us message
    match channels with
    | none => .error .attributeError
    | some cs =>
      let m2 := substChannels cs m1
      match buildFilesMsg files with
      | .error e => .error e
      | .ok files_msg =>
        let limit : Int := (MAX_MESSAGE_SIZE : Int) - files_msg.length
        .ok (pyStripNl (pySlice m2 limit ++ "\n" ++ files_msg))

/-- The display-name expression of `get_display_names` (source lines 66-68)
and of the inline `user_profile` branch of `import_here` (lines 195-198):
`display_name if display_name else real_name` (Python string truthiness). -/
def profileName (p : Profile) : String :=
  if p.display_name.isEmpty then p.real_name else p.display_name

/-- The dict-building loop of `get_display_names` (source lines 65-68). -/
def buildUsers (entries : List UserEntry) : Dict :=
  entries.foldl (fun d e => dictInsert d e.id (profileName e.profile)) []

/-- `get_display_names` (source lines 39-74) abstracted over file IO: the
input is `none` when `users.json` is absent in both candidate directories
or fails to parse (both paths `return None` in the source), otherwise the
parsed entry list. -/
def get_display_names (input : Option (List UserEntry)) : Option Dict :=
  match input with
  | none => none
  | some es => some (buildUsers es)

/-- The record validation of `import_here` (source line 193):
`all(key in message for key in ['ts', 'text']) and
any(k in message for k in ['user_profile', 'user'])`. -/
def validB (m : MessageRecord) : Bool :=
  (m.ts.isSome && m.text.isSome) && (m.user_profile.isSome || m.user.isSome)

/-- Author-name resolution of `import_here` (source lines 194-200):
inline `user_profile` wins, else `users[message['user']]`, which raises
`TypeError` when `users` is `None` and `KeyError` when the id is absent. -/
def getUsername (users : Option Dict) (m : MessageRecord) : Except PyErr String :=
  match m.user_profile with
  | some p => .ok (profileName p)
  | none =>
    match m.user with
    | none => .error (.keyError "user")
    | some u =>
      match users with
      | none => .error .typeError
      | some us =>
        match dictGet us u with
        | some name => .ok name
        | none => .error (.keyError u)

/-- Per-message body of the `import_here` loop (source lines 193-213),
parameterized by the timestamp display formatter `fmt`.  Returns
`.ok none` for a skipped (invalid) record, `.ok (some msg)` for the text
sent by `ctx.send`, `.error e` when the body raises. -/
def processMessage (fmt : String → String) (users channels : Option Dict)
    (m : MessageRecord) : Except PyErr (Option String) :=
  if validB m then
    match getUsername users m with
    | .error e => .error e
    | .ok username =>
      let timestamp := fmt (m.ts.getD "")
      let fileUrls := m.files.map (fun fi => fi.url_private)
      match fill_references users channels fileUrls (m.text.getD "") with
      | .error e => .error e
      | .ok text => .ok (some ("**" ++ username ++ "** *(" ++ timestamp ++ ")*\n" ++ text))
  else .ok none

/-- The per-file message loop (source lines 192-216): sends accumulate in
order; an exception aborts the rest of the file (the `try` of line 190 is
caught at line 217, file scope). -/
def processMessages (fmt : String → String) (users channels : Option Dict) :
    List MessageRecord → List String
  | [] => []
  | m :: rest =>
    match processMessage fmt users channels m with
    | .error _ => []
    | .ok none => processMessages fmt users channels rest
    | .ok (some s) => s :: processMessages fmt users channels rest

/-- The file loop of `import_here` (source lines 188-218) over already-sorted
files: each file contributes its sends; a file-scope exception never stops
the loop over the remaining files. -/
def runFiles (fmt : String → String) (users channels : Option Dict)
    (files : List (String × List MessageRecord)) : List String :=
  files.foldr (fun f acc => processMessages fmt users channels f.2 ++ acc) []

/-- Order on (path, parsed content) pairs: lexicographic on the path string,
as Python's `sorted` on the path list (source line 188). -/
def fileLE (a b : String × List MessageRecord) : Prop := a.1 ≤ b.1

instance : DecidableRel fileLE :=
  fun a b => inferInstanceAs (Decidable (a.1 ≤ b.1))

instance : IsTotal (String × List MessageRecord) fileLE :=
  ⟨fun a b => le_total a.1 b.1⟩

instance : IsTrans (String × List MessageRecord) fileLE :=
  ⟨fun _ _ _ h1 h2 => le_trans h1 h2⟩

/-- `sorted(json_file_paths)` (source line 188). -/
def sortFiles (files : List (String × List MessageRecord)) :
    List (String × List MessageRecord) :=
  List.insertionSort fileLE files

/-- One path argument of `import_here` after the lookups (source lines
188-219): iterate the export files in sorted path order. -/
def processPath (fmt : String → String) (users channels : Option Dict)
    (files : List (String × List MessageRecord)) : List String :=
  runFiles fmt users channels (sortFiles files)

/-- The send (if any) a record contributes, used to state the order law. -/
def sendOf (fmt : String → String) (users channels : Option Dict)
    (m : MessageRecord) : Option String :=
  match processMessage fmt users channels m with
  | .ok o => o
  | .error _ => none

/-- Did the per-message body run without raising? -/
def exceptOk (r : Except PyErr (Option String)) : Bool :=
  match r with
  | .ok _ => true
  | .error _ => false

/-- Abstract filesystem view consumed by `get_file_paths`: `os.path.isdir`,
`os.path.isfile` and `os.listdir` (direct entries of a directory, files
and subdirectories alike). -/
structure FileSystem where
  isDir : String → Bool
  isFile : String → Bool
  listDir : String → List String

/-- Python `s.endswith(suffix)`, embedded as an executable suffix test on
the character lists. -/
def strEndsWith (s suffix : String) : Bool :=
  suffix.data.isSuffixOf s.data

/-- `os.path.join` for POSIX-style relative names as used here. -/
def pathJoin (a b : String) : String :=
  if a = "" then b else if strEndsWith a "/" then a ++ b else a ++ "/" ++ b

/-- `get_file_paths(file_path)` (source lines 16-36). -/
def get_file_paths (fs : FileSystem) (file_path : String) : List String :=
  if fs.isDir file_path then
    (fs.listDir file_path).filterMap
      (fun f => if strEndsWith f ".json" then some (pathJoin file_path f)
        else none)
  else if strEndsWith file_path ".json" then [file_path] else []

/-- A filesystem with no directories and no files. -/
def emptyFS : FileSystem :=
  { isDir := fun _ => false, isFile := fun _ => false, listDir := fun _ => [] }

/-! ### Concrete inputs used by evaluation theorems and witnesses -/

/-- A fully valid record with an inline profile and a raw user mention. -/
def mInline : MessageRecord :=
  { ts := some "1609459200", text := some "hi <@U123>",
    user_profile := some { display_name := "alice", real_name := "Alice R" },
    user := none, files := [] }

/-- A valid record with a bare `user` id and no inline profile. -/
def mBareUser : MessageRecord :=
  { ts := some "1609459200", text := some "hi", user_profile := none,
    user := some "U123", files := [] }

/-- A record missing `text` (invalid per the line-193 check). -/
def mNoText : MessageRecord :=
  { ts := some "1609459200", text := none,
    user_profile := some { display_name := "alice", real_name := "Alice R" },
    user := none, files := [] }

/-- A valid record whose attachment descriptor lacks `url_private`. -/
def mBadFile : MessageRecord :=
  { ts := some "1609459200", text := some "see file",
    user_profile := some { display_name := "alice", real_name := "Alice R" },
    user := none,
    files := [{ url_private := none, mimetype := "text/plain", name := "a.txt" }] }

/-- A second valid record, used to show the run continuing on later files. -/
def mGood : MessageRecord :=
  { ts := some "1", text := some "ok",
    user_profile := some { display_name := "bob", real_name := "Bob B" },
    user := none, files := [] }

/-- A valid record with a late timestamp, ordered first in its file. -/
def mLate : MessageRecord :=
  { ts := some "2000000000", text := some "second epoch",
    user_profile := some { display_name := "alice", real_name := "A" },
    user := none, files := [] }

/-- A valid record with an early timestamp, ordered second in its file. -/
def mEarly : MessageRecord :=
  { ts := some "1000", text := some "early epoch",
    user_profile := some { display_name := "bob", real_name := "B" },
    user := none, files := [] }

/-- A profile whose `display_name` is the empty string. -/
def pRocky : Profile := { display_name := "", real_name := "Rocky" }

/-- A `users.json` entry carrying `pRocky`. -/
def eRocky : UserEntry := { id := "U7", profile := pRocky }

/-- A valid record whose inline profile is `pRocky`. -/
def mRocky : MessageRecord :=
  { ts := some "1", text := some "t", user_profile := some pRocky,
    user := none, files := [] }

/-- An attachment URL of 1940 characters: the attachment block `'\n' + url`
then has 1941 characters, already over the 1940-character budget. -/
def longUrl : String := ⟨List.replicate 1940 'u'⟩

/-- A 3000-character body. -/
def longBody : String := ⟨List.replicate 3000 'a'⟩

/-! ### Helper lemmas -/

/-- `str.replace` with a pattern that does not occur leaves the string as is. -/
theorem pyReplaceL_eq_self (s pat rep : List Char) (h : hasSub s pat = false) :
    pyReplaceL s pat rep = s := by
  induction s with
  | nil => simp [pyReplaceL]
  | cons c cs ih =>
    simp only [hasSub, Bool.or_eq_false_iff] at h
    rw [pyReplaceL]
    rw [dif_neg (fun hc => by simp [h.1] at hc)]
    exact congrArg (c :: ·) (ih h.2)

/-- `pyReplace` on `String`, same statement. -/
theorem pyReplace_eq_self (s pat rep : String) (h : hasSub s.data pat.data = false) :
    pyReplace s pat rep = s := by
  cases s with
  | mk l => simp [pyReplace, pyReplaceL_eq_self _ _ _ h]

/-- The user-substitution loop is the identity on a string containing no
`<@uid>` token for any `uid` in the map. -/
theorem substUsers_eq_self (us : Dict) (m : String)
    (h : ∀ p ∈ us, hasSub m.data (userToken p.1).data = false) :
    substUsers us m = m := by
  induction us with
  | nil => rfl
  | cons q tl ih =>
    have hq : pyReplace m (userToken q.1) ("@" ++ q.2) = m :=
      pyReplace_eq_self _ _ _ (h q (by simp))
    calc substUsers (q :: tl) m
        = substUsers tl (pyReplace m (userToken q.1) ("@" ++ q.2)) := rfl
      _ = substUsers tl m := by rw [hq]
      _ = m := ih (fun p hp => h p (by simp [hp]))

/-- The channel-substitution loop is the identity on a string containing no
`<#cid>` token for any `cid` in the map. -/
theorem substChannels_eq_self (cs : Dict) (m : String)
    (h : ∀ p ∈ cs, hasSub m.data (channelToken p.1).data = false) :
    substChannels cs m = m := by
  induction cs with
  | nil => rfl
  | cons q tl ih =>
    have hq : pyReplace m (channelToken q.1) ("#" ++ q.2) = m :=
      pyReplace_eq_self _ _ _ (h q (by simp))
    calc substChannels (q :: tl) m
        = substChannels tl (pyReplace m (channelToken q.1) ("#" ++ q.2)) := rfl
      _ = substChannels tl m := by rw [hq]
      _ = m := ih (fun p hp => h p (by simp [hp]))

/-- Joining the attachment URLs raises `TypeError` as soon as the list
contains a `None` (a descriptor without `url_private`). -/
theorem buildFilesMsgAux_none (urls : List (Option String)) (h : none ∈ urls)
    (acc : String) : buildFilesMsgAux acc urls = .error .typeError := by
  induction urls generalizing acc with
  | nil => cases h
  | cons o tl ih =>
    cases o with
    | none => rfl
    | some u =>
      have : none ∈ tl := by
        rcases List.mem_cons.mp h with h1 | h1
        · exact absurd h1 (by simp)
        · exact h1
      simp [buildFilesMsgAux, ih this]

/-- After a `d[k] = v` overwrite, the first entry with key `k` holds `v`. -/
theorem find?_map_overwrite (d : Dict) (k v : String)
    (h : d.any (fun p => p.1 == k) = true) :
    (d.map (fun p => if p.1 == k then (k, v) else p)).find?
      (fun p => p.1 == k) = some (k, v) := by
  induction d with
  | nil => simp at h
  | cons a tl ih =>
    by_cases ha : a.1 == k
    · simp only [List.map_cons, ha, if_pos]
      exact List.find?_cons_of_pos _ (by simp)
    · simp only [List.any_cons, Bool.or_eq_true] at h
      rcases h with h | h
      · exact absurd h ha
      · simp only [List.map_cons, ha, if_neg, Bool.false_eq_true,
          not_false_eq_true]
        rw [List.find?_cons_of_neg _ (by simpa using ha)]
        exact ih h

/-- Reading back the key just written into the embedded dict yields the
written value, whether the write overwrote or appended. -/
theorem dictGet_dictInsert (d : Dict) (k v : String) :
    dictGet (dictInsert d k v) k = some v := by
  unfold dictGet dictInsert
  by_cases h : d.any (fun p => p.1 == k)
  · rw [if_pos h, find?_map_overwrite d k v h]
    rfl
  · rw [if_neg h]
    have hnone : d.find? (fun p => p.1 == k) = none := by
      rw [List.find?_eq_none]
      intro x hx hpx
      exact h (List.any_eq_true.mpr ⟨x, hx, hpx⟩)
    rw [List.find?_append, hnone]
    simp

/-- The user dict built from a list of entries ending in `e` holds, at
`e.id`, the display name the builder computed for `e`. -/
theorem buildUsers_last (es : List UserEntry) (e : UserEntry) :
    dictGet (buildUsers (es ++ [e])) e.id = some (profileName e.profile) := by
  unfold buildUsers
  rw [List.foldl_append]
  exact dictGet_dictInsert _ _ _

/-- Dropping leading newlines passes over a block of newlines. -/
theorem dropWhile_nl_replicate (k : Nat) (l : List Char) :
    (List.replicate k '\n' ++ l).dropWhile (fun c => c == '\n')
      = l.dropWhile (fun c => c == '\n') := by
  induction k with
  | zero => simp
  | succ n ih =>
    rw [List.replicate_succ, List.cons_append, List.dropWhile_cons]
    simpa using ih

/-- `strip('\n')` of `k` newlines followed by text that starts and ends in
non-newline characters removes exactly the leading newlines. -/
theorem pyStripNl_nl_sandwich (k : Nat) (a z : Char) (M : List Char)
    (ha : (a == '\n') = false) (hz : (z == '\n') = false) :
    pyStripNl ⟨List.replicate k '\n' ++ (a :: (M ++ [z]))⟩
      = ⟨a :: (M ++ [z])⟩ := by
  simp only [pyStripNl]
  rw [dropWhile_nl_replicate, List.dropWhile_cons]
  simp only [ha, Bool.false_eq_true, if_false]
  have hrev : (a :: (M ++ [z])).reverse = z :: (M.reverse ++ [a]) := by simp
  rw [hrev, List.dropWhile_cons]
  simp only [hz, Bool.false_eq_true, if_false]
  exact congrArg String.mk (by simp)

/-- `strip('\n')` is the identity on text that starts and ends in
non-newline characters. -/
theorem pyStripNl_sandwich (a z : Char) (M : List Char)
    (ha : (a == '\n') = false) (hz : (z == '\n') = false) :
    pyStripNl ⟨a :: (M ++ [z])⟩ = ⟨a :: (M ++ [z])⟩ := by
  have h := pyStripNl_nl_sandwich 0 a z M ha hz
  simpa using h

/-- The 1940-character URL has length 1940. -/
theorem longUrl_length : longUrl.length = 1940 := by
  show (List.replicate 1940 'u').length = 1940
  rw [List.length_replicate]

/-- The attachment block built from `longUrl` has 1941 characters,
exceeding the 1940-character budget on its own. -/
theorem blockLen_eq : ("" ++ "\n" ++ longUrl).length = 1941 := by
  rw [String.length_append, String.length_append, longUrl_length]
  rfl

/-- A string equals the `String.mk` of its character list. -/
theorem str_eq_of_data {s : String} {l : List Char} (h : s.data = l) :
    s = ⟨l⟩ := by
  cases s
  exact congrArg String.mk h

/-- `longUrl` decomposed into first character, middle, last character. -/
theorem longUrl_data_decomp :
    longUrl.data = 'u' :: (List.replicate 1938 'u' ++ ['u']) := by
  have e : longUrl.data = List.replicate 1940 'u' := rfl
  rw [e, show (1940 : Nat) = 1939 + 1 from rfl, List.replicate_succ,
    show (1939 : Nat) = 1938 + 1 from rfl, List.replicate_add]
  simp

/-- The character list underlying the attachment block built from
`longUrl`: one newline, then the URL. -/
theorem block_data :
    ("" ++ "\n" ++ longUrl).data
      = List.replicate 1 '\n' ++ ('u' :: (List.replicate 1938 'u' ++ ['u'])) := by
  rw [String.data_append, String.data_append, longUrl_data_decomp]
  have e1 : ("" : String).data = [] := rfl
  have e2 : ("\n" : String).data = ['\n'] := rfl
  rw [e1, e2]
  simp

/-- `strip('\n')` of the attachment block built from `longUrl` is the URL
itself: the block-only final text the claim predicts. -/
theorem stripNl_block : pyStripNl ("" ++ "\n" ++ longUrl) = longUrl := by
  rw [str_eq_of_data block_data,
    pyStripNl_nl_sandwich 1 'u' 'u' (List.replicate 1938 'u') rfl rfl]
  exact (str_eq_of_data longUrl_data_decomp).symm

/-! ### Claims -/

/-- Claim C9 (confirmed): the reference-substitution step of
`fill_references` is the identity on text containing no raw `<@uid>` token
for any `uid` in the user map and no `<#cid>` token for any `cid` in the
channel map; hence re-running substitution on already-substituted text of
that shape changes nothing (idempotence, source lines 122-125). -/
theorem c9_substitution_idempotent (us cs : Dict) (m : String)
    (hu : ∀ p ∈ us, hasSub m.data (userToken p.1).data = false)
    (hc : ∀ p ∈ cs, hasSub m.data (channelToken p.1).data = false) :
    substChannels cs (substUsers us m) = m := by
  rw [substUsers_eq_self us m hu]
  exact substChannels_eq_self cs m hc

/-- Witness for C9 at a concrete token-free text and nonempty maps. -/
theorem c9_substitution_idempotent_witness :
    (∀ p ∈ [("U123", "alice")], hasSub "hello @alice world".data
        (userToken p.1).data = false)
    ∧ (∀ p ∈ [("C9", "general")], hasSub "hello @alice world".data
        (channelToken p.1).data = false)
    ∧ substChannels [("C9", "general")]
        (substUsers [("U123", "alice")] "hello @alice world")
      = "hello @alice world" :=
  ⟨by decide, by decide,
    c9_substitution_idempotent [("U123", "alice")] [("C9", "general")]
      "hello @alice world" (by decide) (by decide)⟩

/-- Claim C7 (confirmed): a record failing the line-193 presence check
(missing `ts`, `text`, or both author references) is skipped — the loop
body returns without raising and without sending — and the file's
remaining messages are processed exactly as if the record were absent. -/
theorem c7_invalid_record_skipped (fmt : String → String)
    (users channels : Option Dict) (m : MessageRecord)
    (rest : List MessageRecord) (hv : validB m = false) :
    processMessage fmt users channels m = .ok none
    ∧ processMessages fmt users channels (m :: rest)
        = processMessages fmt users channels rest := by
  have h1 : processMessage fmt users channels m = .ok none := by
    simp [processMessage, hv]
  exact ⟨h1, by simp [processMessages, h1]⟩

/-- Witness for C7 at a record missing `text`. -/
theorem c7_invalid_record_skipped_witness :
    validB mNoText = false
    ∧ processMessage (fun s => s) (some []) (some []) mNoText = .ok none
    ∧ processMessages (fun s => s) (some []) (some []) [mNoText, mGood]
        = processMessages (fun s => s) (some []) (some []) [mGood] :=
  ⟨by decide,
    (c7_invalid_record_skipped (fun s => s) (some []) (some []) mNoText
      [mGood] (by decide)).1,
    (c7_invalid_record_skipped (fun s => s) (some []) (some []) mNoText
      [mGood] (by decide)).2⟩

/-- Claim C8 (confirmed): when a profile's `display_name` is the empty
string, the resolved display name is `real_name` — in the truthiness
expression shared by `get_display_names` (lines 66-68) and the inline
`user_profile` branch of `import_here` (lines 195-198), in the author name
actually resolved for a record carrying that profile, and in the user
mapping built from a `users.json` whose last entry carries that profile. -/
theorem c8_display_name_fallback (p : Profile) (hp : p.display_name = "") :
    profileName p = p.real_name
    ∧ (∀ (users : Option Dict) (m : MessageRecord), m.user_profile = some p →
        getUsername users m = .ok p.real_name)
    ∧ (∀ (es : List UserEntry) (i : String),
        dictGet (buildUsers (es ++ [{ id := i, profile := p }])) i
          = some p.real_name) := by
  have h1 : profileName p = p.real_name := by
    unfold profileName
    rw [hp]
    rfl
  refine ⟨h1, fun users m hm => ?_, fun es i => ?_⟩
  · simp [getUsername, hm, h1]
  · rw [buildUsers_last es { id := i, profile := p }]
    simp [h1]

/-- Witness for C8 at a concrete empty-`display_name` profile. -/
theorem c8_display_name_fallback_witness :
    pRocky.display_name = ""
    ∧ profileName pRocky = pRocky.real_name
    ∧ getUsername (some []) mRocky = .ok pRocky.real_name
    ∧ dictGet (buildUsers ([] ++ [eRocky])) "U7" = some pRocky.real_name :=
  ⟨rfl,
    (c8_display_name_fallback pRocky rfl).1,
    (c8_display_name_fallback pRocky rfl).2.1 (some []) mRocky rfl,
    (c8_display_name_fallback pRocky rfl).2.2 [] "U7"⟩

/-- Claim C4 (confirmed): a valid record whose author is a bare `user` id
absent from the user dict raises `KeyError` at `users[message['user']]`
(line 200); the exception is caught at file scope (line 217), so no
further message of that file is sent, and the file loop proceeds with the
next file. -/
theorem c4_author_lookup_fatal (fmt : String → String) (US : Dict)
    (channels : Option Dict) (m : MessageRecord) (rest : List MessageRecord)
    (p : String) (fs : List (String × List MessageRecord)) (u : String)
    (hv : validB m = true) (hup : m.user_profile = none)
    (hu : m.user = some u) (hlook : dictGet US u = none) :
    processMessage fmt (some US) channels m = .error (.keyError u)
    ∧ processMessages fmt (some US) channels (m :: rest) = []
    ∧ runFiles fmt (some US) channels ((p, m :: rest) :: fs)
        = runFiles fmt (some US) channels fs := by
  have hname : getUsername (some US) m = .error (.keyError u) := by
    simp [getUsername, hup, hu, hlook]
  have h1 : processMessage fmt (some US) channels m = .error (.keyError u) := by
    simp [processMessage, hv, hname]
  have h2 : processMessages fmt (some US) channels (m :: rest) = [] := by
    simp [processMessages, h1]
  exact ⟨h1, h2, by simp [runFiles, h2]⟩

/-- Witness for C4: a one-entry user dict lacking `U123`, a second file
whose single valid message is still imported. -/
theorem c4_author_lookup_fatal_witness :
    validB mBareUser = true
    ∧ mBareUser.user_profile = none
    ∧ mBareUser.user = some "U123"
    ∧ dictGet [("U9", "zoe")] "U123" = none
    ∧ processMessage (fun s => s) (some [("U9", "zoe")]) (some []) mBareUser
        = .error (.keyError "U123")
    ∧ processMessages (fun s => s) (some [("U9", "zoe")]) (some [])
        [mBareUser, mGood] = []
    ∧ runFiles (fun s => s) (some [("U9", "zoe")]) (some [])
        [("a.json", [mBareUser, mGood]), ("b.json", [mGood])]
        = runFiles (fun s => s) (some [("U9", "zoe")]) (some [])
            [("b.json", [mGood])] := by
  have h := c4_author_lookup_fatal (fun s => s) [("U9", "zoe")] (some [])
    mBareUser [mGood] "a.json" [("b.json", [mGood])] "U123"
    (by decide) (by decide) (by decide) (by decide)
  exact ⟨by decide, by decide, by decide, by decide, h.1, h.2.1, h.2.2⟩

/-- Claim C10 (confirmed): an otherwise-valid record whose `files` list has
a descriptor without `url_private` makes the URL list contain a `None`;
the `'\n'.join` inside `fill_references` (line 129) raises `TypeError`,
caught at file scope, so the file's remaining messages are skipped and the
run continues with the next file. -/
theorem c10_missing_url_fatal (fmt : String → String) (US CS : Dict)
    (m : MessageRecord) (rest : List MessageRecord) (p : String)
    (fs : List (String × List MessageRecord)) (pr : Profile) (fi : FileInfo)
    (hv : validB m = true) (hup : m.user_profile = some pr)
    (hfi : fi ∈ m.files) (hurl : fi.url_private = none) :
    processMessage fmt (some US) (some CS) m = .error .typeError
    ∧ processMessages fmt (some US) (some CS) (m :: rest) = []
    ∧ runFiles fmt (some US) (some CS) ((p, m :: rest) :: fs)
        = runFiles fmt (some US) (some CS) fs := by
  have hmem : none ∈ m.files.map (fun fi => fi.url_private) := by
    rw [List.mem_map]
    exact ⟨fi, hfi, hurl⟩
  have hfill : fill_references (some US) (some CS)
      (m.files.map (fun fi => fi.url_private)) (m.text.getD "")
        = .error .typeError := by
    simp [fill_references, buildFilesMsg, buildFilesMsgAux_none _ hmem]
  have h1 : processMessage fmt (some US) (some CS) m = .error .typeError := by
    simp [processMessage, hv, getUsername, hup, hfill]
  have h2 : processMessages fmt (some US) (some CS) (m :: rest) = [] := by
    simp [processMessages, h1]
  exact ⟨h1, h2, by simp [runFiles, h2]⟩

/-- Witness for C10 at a concrete record with a URL-less descriptor. -/
theorem c10_missing_url_fatal_witness :
    validB mBadFile = true
    ∧ ({ url_private := none, mimetype := "text/plain", name := "a.txt" }
        : FileInfo) ∈ mBadFile.files
    ∧ processMessage (fun s => s) (some []) (some []) mBadFile
        = .error .typeError
    ∧ processMessages (fun s => s) (some []) (some []) [mBadFile, mGood] = []
    ∧ runFiles (fun s => s) (some []) (some [])
        [("a.json", [mBadFile, mGood]), ("b.json", [mGood])]
        = runFiles (fun s => s) (some []) (some []) [("b.json", [mGood])] := by
  have h := c10_missing_url_fatal (fun s => s) [] [] mBadFile [mGood] "a.json"
    [("b.json", [mGood])] { display_name := "alice", real_name := "Alice R" }
    { url_private := none, mimetype := "text/plain", name := "a.txt" }
    (by decide) (by decide) (by decide) (by decide)
  exact ⟨by decide, by decide, h.1, h.2.1, h.2.2⟩

/-- Claim C5 (confirmed): sends occur in exactly the input array order of a
file — any file whose messages all run without raising yields precisely
the in-order sends of its records; a record's `ts` value influences the
result only through the display formatter (so timestamps never reorder
anything); and the file loop iterates the export files of a path argument
in lexicographically sorted path order (`sorted(json_file_paths)`,
line 188). -/
theorem c5_chronological_order (fmt : String → String)
    (users channels : Option Dict) (msgs : List MessageRecord)
    (files : List (String × List MessageRecord))
    (h : ∀ m ∈ msgs, exceptOk (processMessage fmt users channels m) = true) :
    processMessages fmt users channels msgs
      = msgs.filterMap (sendOf fmt users channels)
    ∧ (∀ (m : MessageRecord) (t : String),
        processMessage fmt users channels { m with ts := some t }
          = processMessage (fun _ => fmt t) users channels
              { m with ts := some "0" })
    ∧ processPath fmt users channels files
        = runFiles fmt users channels (sortFiles files)
    ∧ List.Sorted fileLE (sortFiles files) := by
  refine ⟨?_, ?_, rfl, List.sorted_insertionSort fileLE files⟩
  · induction msgs with
    | nil => rfl
    | cons m tl ih =>
      have hm := h m (by simp)
      have htl : ∀ m' ∈ tl, exceptOk (processMessage fmt users channels m')
          = true := fun m' hm' => h m' (by simp [hm'])
      cases hpm : processMessage fmt users channels m with
      | error e => rw [hpm] at hm; simp [exceptOk] at hm
      | ok o =>
        cases o with
        | none =>
          simp [processMessages, hpm, List.filterMap_cons, sendOf, ih htl]
        | some s =>
          simp [processMessages, hpm, List.filterMap_cons, sendOf, ih htl]
  · intro m t
    cases m
    rfl

/-- Witness for C5: two valid messages whose timestamps are in reverse
chronological order are sent in input order; two files with reverse-sorted
names are iterated sorted. -/
theorem c5_chronological_order_witness :
    (∀ m ∈ [mLate, mEarly],
      exceptOk (processMessage (fun s => s) (some []) (some []) m) = true)
    ∧ processMessages (fun s => s) (some []) (some []) [mLate, mEarly]
        = [mLate, mEarly].filterMap (sendOf (fun s => s) (some []) (some []))
    ∧ processPath (fun s => s) (some []) (some [])
        [("b.json", [mEarly]), ("a.json", [mLate])]
        = runFiles (fun s => s) (some []) (some [])
            (sortFiles [("b.json", [mEarly]), ("a.json", [mLate])])
    ∧ List.Sorted fileLE
        (sortFiles [("b.json", [mEarly]), ("a.json", [mLate])]) := by
  have h := c5_chronological_order (fun s => s) (some []) (some [])
    [mLate, mEarly] [("b.json", [mEarly]), ("a.json", [mLate])] (by decide)
  exact ⟨by decide, h.1, h.2.2.1, h.2.2.2⟩

/-- Claim C1 (code_bug): the spec says a missing/unparseable lookup table
degrades to unresolved raw identifiers, never fatally — and the code's own
warning log says the same — but `import_here` passes the `None` returned
by `get_display_names` straight into `fill_references`, whose
`users.items()` loop raises `AttributeError`; caught at file scope, it
skips every message of every file, so nothing is sent at all. -/
theorem c1_missing_lookup_fatal_eval :
    get_display_names none = none
    ∧ processMessage (fun s => s) none (some []) mInline
        = .error .attributeError
    ∧ processMessages (fun s => s) none (some []) [mInline, mGood] = [] :=
  ⟨rfl, rfl, rfl⟩

/-- Claim C2 (code_bug): the truncation law fails.  With a 1940-character
attachment URL the block has 1941 characters, `limit` is `-1`, and
Python's `message[:-1]` keeps all but the last character of a 3000-character
body instead of truncating to the budget: the final text has 4941
characters, beyond both `1940 + length('\n' + block) = 3882` and the
2000-character transport hard limit. -/
theorem c2_truncation_law_violated_eval :
    buildFilesMsg [some longUrl] = .ok ("" ++ "\n" ++ longUrl)
    ∧ (fill_references (some []) (some []) [some longUrl] longBody).map
        String.length = .ok 4941
    ∧ 1940 + ("\n" ++ ("" ++ "\n" ++ longUrl)).length < 4941
    ∧ 2000 < 4941 := by
  refine ⟨rfl, ?_, ?_, by norm_num⟩
  · have h0 : fill_references (some []) (some []) [some longUrl] longBody
        = .ok (pyStripNl (pySlice longBody
            ((MAX_MESSAGE_SIZE : Int) - ("" ++ "\n" ++ longUrl).length)
            ++ "\n" ++ ("" ++ "\n" ++ longUrl))) := rfl
    rw [h0]
    have h1 : pySlice longBody
        ((MAX_MESSAGE_SIZE : Int) - ("" ++ "\n" ++ longUrl).length)
        = ⟨List.replicate 2999 'a'⟩ := by
      rw [blockLen_eq]
      show pySlice ⟨List.replicate 3000 'a'⟩
        ((MAX_MESSAGE_SIZE : Int) - ((1941 : Nat) : Int)) = ⟨List.replicate 2999 'a'⟩
      simp only [pySlice]
      rw [if_neg (by norm_num [MAX_MESSAGE_SIZE])]
      rw [List.length_replicate, List.take_replicate]
      norm_num [MAX_MESSAGE_SIZE]
    rw [h1]
    have h2 : (⟨List.replicate 2999 'a'⟩ ++ "\n" ++ ("" ++ "\n" ++ longUrl) : String)
        = ⟨'a' :: ((List.replicate 2998 'a'
            ++ '\n' :: '\n' :: 'u' :: List.replicate 1938 'u') ++ ['u'])⟩ := by
      apply str_eq_of_data
      rw [String.data_append, String.data_append, String.data_append,
        String.data_append, longUrl_data_decomp]
      have e1 : ("" : String).data = [] := rfl
      have e2 : ("\n" : String).data = ['\n'] := rfl
      have e3 : (⟨List.replicate 2999 'a'⟩ : String).data
          = List.replicate 2999 'a' := rfl
      rw [e1, e2, e3]
      rw [show (2999 : Nat) = 2998 + 1 from rfl, List.replicate_succ]
      simp only [List.cons_append, List.nil_append, List.append_assoc,
        List.singleton_append]
    rw [h2, pyStripNl_sandwich 'a' 'u' _ rfl rfl]
    show Except.ok (String.length ⟨'a' :: ((List.replicate 2998 'a'
        ++ '\n' :: '\n' :: 'u' :: List.replicate 1938 'u') ++ ['u'])⟩)
      = Except.ok 4941
    apply congrArg Except.ok
    show ('a' :: ((List.replicate 2998 'a'
        ++ '\n' :: '\n' :: 'u' :: List.replicate 1938 'u') ++ ['u'])).length = 4941
    simp only [List.length_cons, List.length_append, List.length_replicate,
      List.length_singleton]
    norm_num
  · rw [String.length_append, blockLen_eq]
    have e : ("\n" : String).length = 1 := rfl
    rw [e]
    norm_num

/-- Python slicing with the negative limit produced when the attachment
block exceeds the 1940-character budget: keep all but the last
`blockLength - 1940` characters. -/
theorem pySlice_neg_eq (s : String) (L : Nat) (h : 1940 < L) :
    pySlice s ((MAX_MESSAGE_SIZE : Int) - L)
      = ⟨s.data.take (s.data.length - (L - 1940))⟩ := by
  cases s with
  | mk l =>
    simp only [pySlice]
    rw [if_neg (by unfold MAX_MESSAGE_SIZE; omega)]
    have harith : (-((MAX_MESSAGE_SIZE : Int) - L)).toNat = L - 1940 := by
      unfold MAX_MESSAGE_SIZE
      omega
    rw [harith]

/-- Claim C3 (corrected): with the 1941-character attachment block and the
two-character body `"ab"`, `limit = -1` and Python's `"ab"[:-1]` is `"a"`,
not the empty string: the final text is the truncated body followed by the
block, not the attachment block alone. -/
theorem c3_negative_limit_counterexample :
    1940 < ("" ++ "\n" ++ longUrl).length
    ∧ pySlice "ab" ((MAX_MESSAGE_SIZE : Int) - ("" ++ "\n" ++ longUrl).length)
        = "a"
    ∧ ("a" : String) ≠ ""
    ∧ fill_references (some []) (some []) [some longUrl] "ab"
        = .ok ⟨'a' :: (('\n' :: '\n' :: 'u' :: List.replicate 1938 'u') ++ ['u'])⟩
    ∧ (⟨'a' :: (('\n' :: '\n' :: 'u' :: List.replicate 1938 'u') ++ ['u'])⟩
        : String) ≠ pyStripNl ("" ++ "\n" ++ longUrl) := by
  have hslice : pySlice "ab"
      ((MAX_MESSAGE_SIZE : Int) - ("" ++ "\n" ++ longUrl).length) = "a" := by
    rw [blockLen_eq]
    have hab : ("ab" : String) = ⟨['a', 'b']⟩ := rfl
    rw [hab]
    simp only [pySlice]
    rw [if_neg (by norm_num [MAX_MESSAGE_SIZE])]
    norm_num [MAX_MESSAGE_SIZE]
  refine ⟨by rw [blockLen_eq]; norm_num, hslice, by decide, ?_, ?_⟩
  · have h0 : fill_references (some []) (some []) [some longUrl] "ab"
        = .ok (pyStripNl (pySlice "ab"
            ((MAX_MESSAGE_SIZE : Int) - ("" ++ "\n" ++ longUrl).length)
            ++ "\n" ++ ("" ++ "\n" ++ longUrl))) := rfl
    rw [h0, hslice]
    have h2 : ("a" ++ "\n" ++ ("" ++ "\n" ++ longUrl) : String)
        = ⟨'a' :: (('\n' :: '\n' :: 'u' :: List.replicate 1938 'u') ++ ['u'])⟩ := by
      apply str_eq_of_data
      rw [String.data_append, String.data_append, String.data_append,
        String.data_append, longUrl_data_decomp]
      have ea : ("a" : String).data = ['a'] := rfl
      have e1 : ("" : String).data = [] := rfl
      have e2 : ("\n" : String).data = ['\n'] := rfl
      rw [ea, e1, e2]
      simp only [List.cons_append, List.nil_append, List.append_assoc,
        List.singleton_append]
    rw [h2, pyStripNl_sandwich 'a' 'u' _ rfl rfl]
  · rw [stripNl_block]
    intro h
    have hlen := congrArg String.length h
    rw [longUrl_length] at hlen
    have : ('a' :: (('\n' :: '\n' :: 'u' :: List.replicate 1938 'u')
        ++ ['u'])).length = 1943 := by
      simp only [List.length_cons, List.length_append, List.length_replicate,
        List.length_singleton, List.length_nil]
    rw [show (⟨'a' :: (('\n' :: '\n' :: 'u' :: List.replicate 1938 'u')
      ++ ['u'])⟩ : String).length = ('a' :: (('\n' :: '\n' :: 'u'
      :: List.replicate 1938 'u') ++ ['u'])).length from rfl, this] at hlen
    norm_num at hlen

/-- Claim C3 as amended: when the attachment block alone exceeds 1940
characters, `limit = 1940 - length(block)` is negative and `message[:limit]`
keeps all but the last `length(block) - 1940` characters of the substituted
body (Python negative slicing) — the body is emptied only when it has at
most that many characters — and the final text is that truncated body
joined to the block by a newline, stripped of boundary newlines. -/
theorem c3_amended_negative_limit (us cs : Dict) (files : List (Option String))
    (body blk : String) (hb : buildFilesMsg files = .ok blk)
    (hlen : 1940 < blk.length) :
    fill_references (some us) (some cs) files body
      = .ok (pyStripNl (⟨(substChannels cs (substUsers us body)).data.take
          ((substChannels cs (substUsers us body)).data.length
            - (blk.length - 1940))⟩ ++ "\n" ++ blk)) := by
  simp only [fill_references]
  rw [hb]
  show Except.ok (pyStripNl (pySlice (substChannels cs (substUsers us body))
      ((MAX_MESSAGE_SIZE : Int) - blk.length) ++ "\n" ++ blk)) = _
  rw [pySlice_neg_eq _ _ hlen]

/-- Witness for the amended C3 at the concrete counterexample input. -/
theorem c3_amended_negative_limit_witness :
    buildFilesMsg [some longUrl] = .ok ("" ++ "\n" ++ longUrl)
    ∧ 1940 < ("" ++ "\n" ++ longUrl).length
    ∧ fill_references (some []) (some []) [some longUrl] "ab"
        = .ok (pyStripNl (⟨(substChannels [] (substUsers [] "ab")).data.take
            ((substChannels [] (substUsers [] "ab")).data.length
              - (("" ++ "\n" ++ longUrl).length - 1940))⟩ ++ "\n"
            ++ ("" ++ "\n" ++ longUrl))) :=
  ⟨rfl, by rw [blockLen_eq]; norm_num,
    c3_amended_negative_limit [] [] [some longUrl] "ab" ("" ++ "\n" ++ longUrl)
      rfl (by rw [blockLen_eq]; norm_num)⟩

/-- Claim C6 (corrected): `get_file_paths` never checks that a non-directory
path exists — any path whose name ends in `.json` yields the singleton,
even on a filesystem with no files at all, where the claim demands the
empty result. -/
theorem c6_locator_counterexample :
    emptyFS.isDir "ghost.json" = false
    ∧ emptyFS.isFile "ghost.json" = false
    ∧ get_file_paths emptyFS "ghost.json" = ["ghost.json"]
    ∧ ["ghost.json"] ≠ ([] : List String) := by
  refine ⟨rfl, rfl, ?_, by decide⟩
  rfl

/-- Claim C6 as amended: for a directory, exactly the direct child entries
(of any kind) whose names end in `.json`, joined to the directory path;
for any other path string ending in `.json` — existing or not — the
singleton of that path; otherwise the empty result. -/
theorem c6_locator_amended (fs : FileSystem) (p q : String) :
    q ∈ get_file_paths fs p ↔
      ((fs.isDir p = true ∧ ∃ f, f ∈ fs.listDir p
          ∧ strEndsWith f ".json" = true ∧ q = pathJoin p f)
       ∨ (fs.isDir p = false ∧ strEndsWith p ".json" = true ∧ q = p)) := by
  by_cases hd : fs.isDir p = true
  · unfold get_file_paths
    rw [if_pos hd]
    simp only [List.mem_filterMap]
    constructor
    · rintro ⟨f, hf, hsome⟩
      by_cases he : strEndsWith f ".json" = true
      · rw [if_pos he] at hsome
        exact Or.inl ⟨hd, f, hf, he, (Option.some.inj hsome).symm⟩
      · rw [if_neg he] at hsome
        exact absurd hsome (by simp)
    · rintro (⟨_, f, hf, he, hq⟩ | ⟨hdf, _, _⟩)
      · exact ⟨f, hf, by rw [if_pos he, hq]⟩
      · rw [hd] at hdf
        exact Bool.noConfusion hdf
  · unfold get_file_paths
    rw [if_neg hd]
    have hdf : fs.isDir p = false := by
      cases hfd : fs.isDir p
      · rfl
      · exact absurd hfd hd
    by_cases he : strEndsWith p ".json" = true
    · rw [if_pos he]
      simp [hdf, he]
    · rw [if_neg he]
      have he' : strEndsWith p ".json" = false := by
        cases hfe : strEndsWith p ".json"
        · rfl
        · exact absurd hfe he
      simp [hdf, he']

end Slack2Discord
